import Mathlib

/-!
Verification of the annuaire-sante query engine (Cloudflare Pages function
`/api/search`, canonical revision). The remote FHIR API is modelled as an
oracle from requests to bundles; every engine function is embedded as a pure
Lean function that returns its result together with the ordered list of
remote requests it issued. JavaScript-specific semantics (truthiness of
strings, `parseInt`/`Math.min` with `NaN`, `Array.prototype.slice`, object
key maps with last-write-wins, `String.prototype.replace` replacing only the
first occurrence) are embedded by small `js*` helpers.
-/

namespace AnnuaireSante

/-! ### JavaScript string and number semantics -/

/-- Lower-casing, character by character (model of `String.prototype.toLowerCase`). -/
def toLowerStr (s : String) : String :=
  String.mk (s.data.map Char.toLower)

/-- `hay.includes(needle)` : `needle` occurs contiguously inside `hay`. -/
def containsSubAux (needle : List Char) : List Char → Bool
  | [] => needle.isPrefixOf []
  | c :: rest => needle.isPrefixOf (c :: rest) || containsSubAux needle rest

/-- Case-sensitive substring test, the model of `String.prototype.includes`. -/
def containsSub (hay needle : String) : Bool :=
  containsSubAux needle.data hay.data

/-- `o?.toLowerCase().includes(needleLower)` where `o` may be `undefined`:
an absent string never matches. -/
def optContains (o : Option String) (needleLower : String) : Bool :=
  match o with
  | some s => containsSub (toLowerStr s) needleLower
  | none => false

/-- JavaScript `a || b` on strings: the empty string is falsy. -/
def jsOrDefault (s d : String) : String :=
  if s = "" then d else s

/-- JavaScript `a || b` where both sides are optional strings and `""` is falsy. -/
def jsOrStr (a b : Option String) : Option String :=
  match a with
  | some s => if s = "" then b else some s
  | none => b

/-- `[xs].filter(Boolean)` over optional strings: drops `undefined` and `""`. -/
def jsFilterBoolean (l : List (Option String)) : List String :=
  l.filterMap (fun o =>
    match o with
    | some s => if s = "" then none else some s
    | none => none)

/-- Whitespace trim from both ends (model of `String.prototype.trim`). -/
def jsTrim (s : String) : String :=
  String.mk (((s.data.dropWhile Char.isWhitespace).reverse.dropWhile Char.isWhitespace).reverse)

/-- Split a list of characters on whitespace characters. -/
def splitWsAux (cur : List Char) : List Char → List String
  | [] => [String.mk cur.reverse]
  | c :: rest =>
    if c.isWhitespace then String.mk cur.reverse :: splitWsAux [] rest
    else splitWsAux (c :: cur) rest

/-- `name.trim().split(/\s+/)`: after trimming, runs of whitespace separate
tokens; the all-whitespace string yields the single token `""` exactly as in
JavaScript. -/
def jsSplitWs (s : String) : List String :=
  let t := jsTrim s
  if t = "" then [""]
  else (splitWsAux [] t.data).filter (fun w => w ≠ "")

/-- `parts.join(sep)`. -/
def joinSep (sep : String) (parts : List String) : String :=
  match parts with
  | [] => ""
  | p :: rest => rest.foldl (fun acc w => acc ++ sep ++ w) p

def joinSpace (parts : List String) : String := joinSep " " parts

def joinComma (parts : List String) : String := joinSep "," parts

/-- Leading decimal digits of a character list, `none` when there are none. -/
def leadingNat (l : List Char) : Option Nat :=
  let ds := l.takeWhile Char.isDigit
  if ds = [] then none
  else some (ds.foldl (fun a c => a * 10 + (c.toNat - ('0').toNat)) 0)

/-- `parseInt(s, 10)`: skip whitespace, optional sign, then leading decimal
digits; `none` models `NaN`. -/
def jsParseInt (s : String) : Option Int :=
  match (jsTrim s).data with
  | '-' :: rest => (leadingNat rest).map (fun n => -(n : Int))
  | '+' :: rest => (leadingNat rest).map (fun n => (n : Int))
  | l => (leadingNat l).map (fun n => (n : Int))

/-- `Math.min(a, b)` where `a` may be `NaN` (`none`): `NaN` propagates. -/
def jsMin (a : Option Int) (b : Int) : Option Int :=
  a.map (fun x => min x b)

/-- `a <= b` in JavaScript where `a` may be `NaN`: any comparison with `NaN`
is false. -/
def jsLeNum (a : Option Int) (b : Int) : Bool :=
  match a with
  | some x => decide (x ≤ b)
  | none => false

/-- Number-to-string coercion used when a count is put into a query string;
`NaN` prints as `"NaN"`. -/
def jsNumToString (n : Option Int) : String :=
  match n with
  | some v => toString v
  | none => "NaN"

/-- `l.slice(0, e)` where `e` may be `NaN` (treated as 0) or negative
(counted from the end). -/
def jsSliceTo (l : List α) (e : Option Int) : List α :=
  match e with
  | none => []
  | some e =>
    if 0 ≤ e then l.take e.toNat
    else l.take ((l.length : Int) + e).toNat

/-- `s.replace(pat, '')` removes only the first occurrence of `pat`. -/
def replaceFirstAux (pat : List Char) : List Char → List Char
  | [] => []
  | c :: rest =>
    if pat.isPrefixOf (c :: rest) then (c :: rest).drop pat.length
    else c :: replaceFirstAux pat rest

def jsReplaceFirst (s pat : String) : String :=
  String.mk (replaceFirstAux pat.data s.data)

/-! ### JavaScript object maps (string-keyed, insertion-ordered) -/

/-- `m[k] = v`: update in place when the key exists, append otherwise. -/
def objSet (m : List (String × α)) (k : String) (v : α) : List (String × α) :=
  match m with
  | [] => [(k, v)]
  | (k0, v0) :: t => if k0 = k then (k0, v) :: t else (k0, v0) :: objSet t k v

/-- `m[k]`, `none` for a missing key. -/
def objGet (m : List (String × α)) (k : String) : Option α :=
  match m with
  | [] => none
  | (k0, v0) :: t => if k0 = k then some v0 else objGet t k

/-- `if (!m[k]) m[k] = []; m[k].push(v)`. -/
def objPush (m : List (String × List α)) (k : String) (v : α) : List (String × List α) :=
  match m with
  | [] => [(k, [v])]
  | (k0, vs) :: t => if k0 = k then (k0, vs ++ [v]) :: t else (k0, vs) :: objPush t k v

/-- `Set.prototype.add` with insertion order preserved. -/
def setInsert (l : List String) (x : String) : List String :=
  if x ∈ l then l else l ++ [x]

/-- The value of the last pair of `l` carrying key `k` — the reference notion
of "last-seen wins" used to specify the deduplicated organization map. -/
def lastSeenById (l : List (String × α)) (k : String) : Option α :=
  l.foldl (fun acc pr => if pr.1 = k then some pr.2 else acc) none

/-- Chunks of size `B` taken left to right (model of the batching loops
`for (let i = 0; i < ids.length; i += batchSize)`). -/
def chunksAux (B : Nat) : Nat → List α → List (List α)
  | 0, _ => []
  | _, [] => []
  | fuel + 1, l => l.take B :: chunksAux B fuel (l.drop B)

def chunksOf (B : Nat) (l : List α) : List (List α) :=
  chunksAux B l.length l

/-! ### Data model: normalized records -/

structure Identifier where
  system : Option String
  value : Option String
  idType : String
deriving DecidableEq

structure Qualification where
  code : Option String
  display : Option String
  system : Option String
deriving DecidableEq

structure Telecom where
  system : Option String
  value : Option String
  tUse : Option String
deriving DecidableEq

structure Pract where
  id : String
  rpps : Option String
  identifiers : List Identifier
  lastName : String
  firstName : String
  qualifications : List Qualification
  active : Bool
deriving DecidableEq

structure Org where
  id : String
  name : String
  orgType : String
  address : Option String
  city : Option String
  postalCode : Option String
  telecoms : List Telecom
deriving DecidableEq

structure Role where
  id : String
  practitionerId : String
  organizationId : String
  specialties : List String
  telecoms : List Telecom
  active : Bool
  address : Option String := none
  city : Option String := none
  organization : Option Org := none
deriving DecidableEq

/-- One element of a search response: a practitioner record with its grouped
roles attached (`{ ...p, roles }` in the source). -/
structure MergedResult where
  pract : Pract
  roles : List Role
deriving DecidableEq

/-! ### Raw FHIR resources and parsers -/

structure RawCoding where
  code : Option String
  display : Option String
  system : Option String
deriving DecidableEq

structure RawName where
  family : Option String
  given : List String
deriving DecidableEq

structure RawIdentifier where
  system : Option String
  value : Option String
  typeCode : Option String
deriving DecidableEq

structure RawQualification where
  coding : List RawCoding
  text : Option String
deriving DecidableEq

structure RawTelecom where
  system : Option String
  value : Option String
  tUse : Option String
deriving DecidableEq

structure RawPractitioner where
  id : String
  name : List RawName
  identifier : List RawIdentifier
  qualification : List RawQualification
  active : Option Bool
deriving DecidableEq

structure RawRole where
  id : String
  practitioner : Option String
  organization : Option String
  specialty : List (List RawCoding)
  telecom : List RawTelecom
  active : Option Bool
deriving DecidableEq

structure RawAddress where
  line : List String
  city : Option String
  postalCode : Option String
  country : Option String
deriving DecidableEq

structure RawOrganization where
  id : String
  name : Option String
  typeDisplay : Option String
  address : List RawAddress
  telecom : List RawTelecom
deriving DecidableEq

/-- `id.system?.includes('rpps') ? 'RPPS' : ... : id.type?.coding?.[0]?.code || 'OTHER'`. -/
def parseIdentifier (r : RawIdentifier) : Identifier :=
  { system := r.system
    value := r.value
    idType :=
      if (match r.system with | some s => containsSub s "rpps" | none => false) then "RPPS"
      else if (match r.system with | some s => containsSub s "adeli" | none => false) then "ADELI"
      else (jsOrStr r.typeCode none).getD "OTHER" }

/-- `{ code: q.code?.coding?.[0]?.code, display: coding display || text, system: ... }`. -/
def parseQualification (q : RawQualification) : Qualification :=
  { code := (q.coding.head?).bind RawCoding.code
    display := jsOrStr ((q.coding.head?).bind RawCoding.display) q.text
    system := (q.coding.head?).bind RawCoding.system }

def parseTelecom (t : RawTelecom) : Telecom :=
  { system := t.system, value := t.value, tUse := t.tUse }

def parsePractitioner (r : RawPractitioner) : Pract :=
  let n := (r.name.head?).getD { family := none, given := [] }
  let identifiers := r.identifier.map parseIdentifier
  { id := r.id
    rpps := (identifiers.find? (fun i => i.idType = "RPPS")).bind (fun i => jsOrStr i.value none)
    identifiers := identifiers
    lastName := n.family.getD ""
    firstName := joinSpace n.given
    qualifications := r.qualification.map parseQualification
    active := decide (r.active ≠ some false) }

/-- Strip a reference literal: `(ref || '').replace(pre, '')`. -/
def refId (pre : String) (ref : Option String) : String :=
  jsReplaceFirst (ref.getD "") pre

def parsePractitionerRole (r : RawRole) : Role :=
  { id := r.id
    practitionerId := refId "Practitioner/" r.practitioner
    organizationId := refId "Organization/" r.organization
    specialties := r.specialty.flatMap (fun codings =>
      codings.map (fun c => (jsOrStr c.display c.code).getD ""))
    telecoms := r.telecom.map parseTelecom
    active := decide (r.active ≠ some false) }

def formatAddress (a : RawAddress) : String :=
  joinSep ", " (jsFilterBoolean
    (a.line.map some ++ [some (joinSpace (jsFilterBoolean [a.postalCode, a.city])), a.country]))

def parseOrganization (r : RawOrganization) : Org :=
  let addr := r.address.head?
  { id := r.id
    name := r.name.getD ""
    orgType := (jsOrStr r.typeDisplay none).getD ""
    address := addr.map formatAddress
    city := addr.bind RawAddress.city
    postalCode := addr.bind RawAddress.postalCode
    telecoms := r.telecom.map parseTelecom }

/-! ### Post-filters -/

/-- City predicate over one role: address, role city, organization city or
organization address contains the lowered city string. -/
def roleCityHit (cityLower : String) (role : Role) : Bool :=
  optContains role.address cityLower ||
  optContains role.city cityLower ||
  (match role.organization with
   | some o => optContains o.city cityLower || optContains o.address cityLower
   | none => false)

def filterByCity (results : List MergedResult) (city : String) : List MergedResult :=
  if city = "" then results
  else results.filter (fun r => r.roles.any (roleCityHit (toLowerStr city)))

def specialtyHit (specLower : String) (r : MergedResult) : Bool :=
  r.roles.any (fun role => role.specialties.any (fun s => containsSub (toLowerStr s) specLower)) ||
  r.pract.qualifications.any (fun q => optContains q.display specLower)

def filterBySpecialty (results : List MergedResult) (specialty : String) : List MergedResult :=
  if specialty = "" then results
  else results.filter (specialtyHit (toLowerStr specialty))

/-! ### Join/merge engine -/

/-- `if (role.organizationId && orgs[role.organizationId]) role.organization = orgs[...]`. -/
def attachOrg (orgs : List (String × Org)) (role : Role) : Role :=
  if role.organizationId ≠ "" then
    match objGet orgs role.organizationId with
    | some o => { role with organization := some o }
    | none => role
  else role

/-- Group the roles by practitioner reference, skipping roles whose reference
parsed to the empty string, attaching the resolved organization to each. -/
def buildRolesBy (orgs : List (String × Org)) (roles : List Role) :
    List (String × List Role) :=
  roles.foldl (fun m role =>
    if role.practitionerId = "" then m
    else objPush m role.practitionerId (attachOrg orgs role)) []

def mergePractitionersAndRoles (practitioners : List Pract) (roles : List Role)
    (orgs : List (String × Org)) : List MergedResult :=
  let grouped := buildRolesBy orgs roles
  practitioners.map (fun p => { pract := p, roles := (objGet grouped p.id).getD [] })

/-! ### The remote FHIR API as an oracle -/

inductive Resource where
  | practitioner (p : RawPractitioner)
  | practitionerRole (r : RawRole)
  | organization (o : RawOrganization)
  | other
deriving DecidableEq

structure BundleLink where
  relation : String
  url : String
deriving DecidableEq

/-- A FHIR search bundle; an absent `entry` array is identified with `[]`
and an absent `total` with `0` (indistinguishable in the engine, which only
uses `bundle.entry?.length`, `for ... of`, and `bundle.total || 0`). -/
structure Bundle where
  entry : List Resource := []
  total : Nat := 0
  link : List BundleLink := []
deriving DecidableEq

/-- `bundle.link?.find(l => l.relation === 'next')?.url || null`. -/
def nextLink (b : Bundle) : Option String :=
  (b.link.find? (fun l => l.relation = "next")).map BundleLink.url

/-- One remote request: either a fresh resource search with its query
parameters in order, or the follow-up of a bundle `next` link. -/
inductive Req where
  | search (resource : String) (params : List (String × String))
  | page (url : String)
deriving DecidableEq

/-- The upstream registry, abstracted: every request deterministically
yields a bundle (upstream failures throw in the source and abort the whole
request; they are outside the modelled behaviours). -/
def Api : Type := Req → Bundle

def apiBase : String := "https://gateway.api.esante.gouv.fr/fhir/v2"

def practitionersOfEntries (l : List Resource) : List Pract :=
  l.filterMap (fun r =>
    match r with
    | Resource.practitioner p => some (parsePractitioner p)
    | _ => none)

def practsOfBundle (b : Bundle) : List Pract :=
  practitionersOfEntries b.entry

def roleParseOfEntry (r : Resource) : Option Role :=
  match r with
  | Resource.practitionerRole rr => some (parsePractitionerRole rr)
  | _ => none

def orgPairOfEntry (r : Resource) : Option (String × Org) :=
  match r with
  | Resource.organization o => some (o.id, parseOrganization o)
  | _ => none

def rolesOfBundle (b : Bundle) : List Role :=
  b.entry.filterMap roleParseOfEntry

def orgPairsOfBundle (b : Bundle) : List (String × Org) :=
  b.entry.filterMap orgPairOfEntry

/-! ### Shared batch fetcher: `fetchRolesForPractitioners` -/

structure RoleFetch where
  practitionerRoles : List Role := []
  organizations : List (String × Org) := []
deriving DecidableEq

/-- The query of one practitioner-id batch:
`PractitionerRole?practitioner=...&_count=200&_include=PractitionerRole:organization`. -/
def roleBatchReq (batch : List String) : Req :=
  Req.search "PractitionerRole"
    [("practitioner", joinComma batch), ("_count", "200"),
     ("_include", "PractitionerRole:organization")]

/-- One entry of a batch bundle: a role is appended, an organization is
keyed by id into the object map (a later entry overwrites an earlier one). -/
def roleFetchStep (acc : RoleFetch) (res : Resource) : RoleFetch :=
  match res with
  | Resource.practitionerRole rr =>
    { acc with practitionerRoles := acc.practitionerRoles ++ [parsePractitionerRole rr] }
  | Resource.organization oo =>
    { acc with organizations := objSet acc.organizations oo.id (parseOrganization oo) }
  | _ => acc

/-- One pass over a bundle's entries. -/
def processRoleBundle (acc : RoleFetch) (b : Bundle) : RoleFetch :=
  b.entry.foldl roleFetchStep acc

/-- `batchSize = 50`, `maxBatches = 6`: the loop
`for (let i = 0; i < ids.length && i / batchSize < maxBatches; i += batchSize)`
walks the 50-chunks of `ids` and stops after the sixth. -/
def fetchBatches (ids : List String) : List (List String) :=
  (chunksOf 50 ids).take 6

def fetchRolesForPractitioners (api : Api) (ids : List String) : RoleFetch × List Req :=
  let reqs := (fetchBatches ids).map roleBatchReq
  (reqs.foldl (fun acc q => processRoleBundle acc (api q)) {}, reqs)

/-! ### Name plan chains -/

/-- Run candidate queries in order until one returns a non-empty entry list
(or the chain is exhausted); the bundle of the last query issued is kept.
This is the shape of the nested `if (!bundle.entry?.length)` fallbacks. -/
def runPlans (api : Api) : List Req → Bundle × List Req
  | [] => ({}, [])
  | q :: rest =>
    let b := api q
    if b.entry = [] then
      match rest with
      | [] => (b, [q])
      | r :: t =>
        let br := runPlans api (r :: t)
        (br.1, q :: br.2)
    else (b, [q])

/-- The candidate plans of `searchByName`: for a multi-token name
`family=first&given=rest`, then `family=last&given=leading`, then
`family=first` alone; for a single token `family=name`, then `name=name`. -/
def namePlans (name : String) : List Req :=
  let parts := jsSplitWs name
  if 2 ≤ parts.length then
    [ Req.search "Practitioner"
        [("family", parts.headD ""), ("given", joinSpace (parts.drop 1)), ("_count", "200")]
    , Req.search "Practitioner"
        [("family", parts.getLastD ""), ("given", joinSpace parts.dropLast), ("_count", "200")]
    , Req.search "Practitioner"
        [("family", parts.headD ""), ("_count", "200")] ]
  else
    [ Req.search "Practitioner" [("family", name), ("_count", "200")]
    , Req.search "Practitioner" [("name", name), ("_count", "200")] ]

/-- The candidate plans of `searchByQualificationCode`, each constrained by
the qualification code. -/
def qualPlans (code name : String) : List Req :=
  let parts := if name = "" then [] else jsSplitWs name
  if 2 ≤ parts.length then
    [ Req.search "Practitioner"
        [("qualification-code", code), ("family", parts.headD ""),
         ("given", joinSpace (parts.drop 1)), ("_count", "200")]
    , Req.search "Practitioner"
        [("qualification-code", code), ("family", parts.getLastD ""),
         ("given", joinSpace parts.dropLast), ("_count", "200")] ]
  else if parts.length = 1 then
    [ Req.search "Practitioner"
        [("qualification-code", code), ("family", name), ("_count", "200")]
    , Req.search "Practitioner"
        [("qualification-code", code), ("name", name), ("_count", "200")] ]
  else
    [ Req.search "Practitioner" [("qualification-code", code), ("_count", "200")] ]

/-! ### Response envelope -/

/-- The JSON response of one logical search; optional fields model JSON keys
that a given return site does not emit. -/
structure SearchResponse where
  status : Nat := 200
  error : Option String := none
  total : Nat := 0
  totalFhir : Option Nat := none
  results : List MergedResult := []
  message : Option String := none
  nextPage : Option String := none
deriving DecidableEq

/-! ### Strategies -/

def rppsReq (rpps : String) : Req :=
  Req.search "Practitioner"
    [("identifier", "https://rpps.esante.gouv.fr|" ++ rpps), ("_count", "10")]

def searchByRpps (api : Api) (rpps : String) : SearchResponse × List Req :=
  let bundle := api (rppsReq rpps)
  if bundle.entry = [] then ({ total := 0, results := [] }, [rppsReq rpps])
  else
    let practitioners := practsOfBundle bundle
    let rr := fetchRolesForPractitioners api (practitioners.map Pract.id)
    let results := mergePractitionersAndRoles practitioners rr.1.practitionerRoles rr.1.organizations
    ({ total := results.length, results := results }, rppsReq rpps :: rr.2)

def searchByName (api : Api) (name city specialty : String) (count : Option Int) :
    SearchResponse × List Req :=
  let pr := runPlans api (namePlans name)
  let bundle := pr.1
  if bundle.entry = [] then
    ({ total := 0, totalFhir := some bundle.total, results := [] }, pr.2)
  else
    let needsPostFilter : Bool := decide (city ≠ "") || decide (specialty ≠ "")
    let page :=
      if needsPostFilter = true ∧ bundle.entry.length < bundle.total then
        match nextLink bundle with
        | some u => ((api (Req.page u)).entry, [Req.page u])
        | none => ([], [])
      else ([], [])
    let allEntries := bundle.entry ++ page.1
    let practitioners := practitionersOfEntries allEntries
    let rr := fetchRolesForPractitioners api (practitioners.map Pract.id)
    let results0 := mergePractitionersAndRoles practitioners rr.1.practitionerRoles rr.1.organizations
    let results1 := filterBySpecialty (filterByCity results0 city) specialty
    let totalFhir := bundle.total
    let results := jsSliceTo results1 count
    ({ total := results.length
       totalFhir := some totalFhir
       message :=
         if 200 < totalFhir ∧ needsPostFilter = false then
           some (toString totalFhir ++
             " résultats au total — affinez votre recherche (ville, spécialité) pour des résultats plus précis")
         else none
       results := results
       nextPage := if needsPostFilter = false then nextLink bundle else none },
     pr.2 ++ page.2 ++ rr.2)

/-- Phase-1 query: `Organization?address-city=...&_count=200&_elements=...`. -/
def orgCityReq (city : String) : Req :=
  Req.search "Organization"
    [("address-city", city), ("_count", "200"), ("_elements", "id,name,address,telecom")]

/-- Phase-2 query: `PractitionerRole?organization=...&_count=200`. -/
def roleOrgReq (batch : List String) : Req :=
  Req.search "PractitionerRole" [("organization", joinComma batch), ("_count", "200")]

/-- Phase-3 query: `Practitioner?_id=...&qualification-code=...&_count=200`. -/
def practIdReq (code : String) (batch : List String) : Req :=
  Req.search "Practitioner"
    [("_id", joinComma batch), ("qualification-code", code), ("_count", "200")]

/-- At most one extra page of organizations is followed
(`// Max 1 extra page to stay within Cloudflare subrequest limits`). -/
def orgPageFetch (api : Api) (b : Bundle) : List Resource × List Req :=
  match nextLink b with
  | some u => (b.entry ++ (api (Req.page u)).entry, [Req.page u])
  | none => (b.entry, [])

def orgsOfEntries (l : List Resource) : List RawOrganization :=
  l.filterMap (fun r =>
    match r with
    | Resource.organization o => some o
    | _ => none)

/-- Phase-2 per-entry step: parse the role, resolve its organization, record
its practitioner id in the set and group the role under that id. -/
def roleAccum (orgs : List (String × Org)) (acc : List String × List (String × List Role))
    (res : Resource) : List String × List (String × List Role) :=
  match res with
  | Resource.practitionerRole rr =>
    let role := attachOrg orgs (parsePractitionerRole rr)
    (setInsert acc.1 role.practitionerId, objPush acc.2 role.practitionerId role)
  | _ => acc

def rolePhase (api : Api) (orgs : List (String × Org)) (batches : List (List String)) :
    List String × List (String × List Role) :=
  batches.foldl (fun acc batch => ((api (roleOrgReq batch)).entry).foldl (roleAccum orgs) acc)
    ([], [])

/-- Phase-3: fetch the collected practitioner ids constrained by the
qualification code, in batches. -/
def matchedPractitioners (api : Api) (code : String) (pidBatches : List (List String)) :
    List Pract :=
  pidBatches.flatMap (fun b => practsOfBundle (api (practIdReq code b)))

/-- All organization entries collected in phase 1 (the first page plus at
most one follow-up page). -/
def phase1Entries (api : Api) (city : String) : List Resource :=
  (orgPageFetch api (api (orgCityReq city))).1

/-- The pagination calls issued by phase 1 (beyond the initial search). -/
def phase1Calls (api : Api) (city : String) : List Req :=
  (orgPageFetch api (api (orgCityReq city))).2

/-- The `orgs` object: `orgs[org.id] = org` over every collected entry. -/
def phase1Orgs (api : Api) (city : String) : List (String × Org) :=
  (orgsOfEntries (phase1Entries api city)).foldl (fun m o => objSet m o.id (parseOrganization o)) []

/-- Organization-id batches of phase 2: the ids are cut to
`batchSize * maxOrgBatches = 300` and chunked by 50. -/
def phase1OrgBatches (api : Api) (city : String) : List (List String) :=
  (chunksOf 50 (((orgsOfEntries (phase1Entries api city)).map RawOrganization.id).take 300)).take 6

/-- Phase 2 outcome: the insertion-ordered set of referenced practitioner ids
and the roles grouped by practitioner id. -/
def phase2 (api : Api) (city : String) : List String × List (String × List Role) :=
  rolePhase api (phase1Orgs api city) (phase1OrgBatches api city)

/-- Practitioner-id batches of phase 3 (`maxPractBatches = 5`). -/
def phase3Batches (api : Api) (city : String) : List (List String) :=
  (chunksOf 50 (phase2 api city).1).take 5

/-- The merged phase-3 result list: every matched practitioner with its
grouped phase-2 roles, cut to the requested page size. -/
def phase3Results (api : Api) (qualCode city : String) (count : Option Int) :
    List MergedResult :=
  jsSliceTo ((matchedPractitioners api qualCode (phase3Batches api city)).map
    (fun p => { pract := p, roles := (objGet (phase2 api city).2 p.id).getD [] })) count

def searchBySpecialtyAndCity (api : Api) (qualCode city : String) (count : Option Int) :
    SearchResponse × List Req :=
  if (api (orgCityReq city)).entry = [] then
    ({ total := 0, results := [], message := some ("Aucune structure trouvée à " ++ city) },
     [orgCityReq city])
  else if (phase2 api city).1 = [] then
    ({ total := 0, results := [] },
     orgCityReq city :: phase1Calls api city ++ (phase1OrgBatches api city).map roleOrgReq)
  else
    ({ total := (phase3Results api qualCode city count).length,
       results := phase3Results api qualCode city count },
     orgCityReq city :: phase1Calls api city ++ (phase1OrgBatches api city).map roleOrgReq
       ++ (phase3Batches api city).map (practIdReq qualCode))

def searchByQualificationCode (api : Api) (code name city : String) (count : Option Int) :
    SearchResponse × List Req :=
  if city ≠ "" ∧ name = "" then searchBySpecialtyAndCity api code city count
  else
    let pr := runPlans api (qualPlans code name)
    let bundle := pr.1
    if bundle.entry = [] then
      ({ total := 0, totalFhir := some bundle.total, results := [] }, pr.2)
    else
      let practitioners := practsOfBundle bundle
      let rr := fetchRolesForPractitioners api (practitioners.map Pract.id)
      let results0 :=
        mergePractitionersAndRoles practitioners rr.1.practitionerRoles rr.1.organizations
      let results := filterByCity results0 city
      ({ total := results.length, totalFhir := some bundle.total, results := results,
         nextPage := nextLink bundle },
       pr.2 ++ rr.2)

/-- The single `PractitionerRole` query of the role-filter strategy; the two
`fhirParams.set('_include', ...)` calls leave only the second value. -/
def roleFilterReq (specialty : String) (count : Option Int) : Req :=
  if specialty ≠ "" then
    Req.search "PractitionerRole"
      [("_count", jsNumToString count), ("_include", "PractitionerRole:organization"),
       ("role", specialty)]
  else
    Req.search "PractitionerRole"
      [("_count", jsNumToString count), ("_include", "PractitionerRole:organization")]

/-- A practitioner reference with no matching embedded record is synthesized
with empty name fields (`practitioners[pid] || { id: pid, lastName: '', ... }`). -/
def emptyPract (pid : String) : Pract :=
  { id := pid, rpps := none, identifiers := [], lastName := "", firstName := "",
    qualifications := [], active := true }

def searchByRoleFilters (api : Api) (city specialty : String) (count : Option Int) :
    SearchResponse × List Req :=
  let bundle := api (roleFilterReq specialty count)
  if bundle.entry = [] then ({ total := 0, results := [] }, [roleFilterReq specialty count])
  else
    let practitionerRoles := rolesOfBundle bundle
    let practitioners := bundle.entry.foldl (fun m r =>
      match r with
      | Resource.practitioner pr => objSet m pr.id (parsePractitioner pr)
      | _ => m) []
    let organizations := bundle.entry.foldl (fun m r =>
      match r with
      | Resource.organization o => objSet m o.id (parseOrganization o)
      | _ => m) []
    let practByRoles := practitionerRoles.foldl (fun m role =>
      objPush m role.practitionerId (attachOrg organizations role)) []
    let results0 := practByRoles.map (fun kv =>
      { pract := (objGet practitioners kv.1).getD (emptyPract kv.1), roles := kv.2 })
    let results := filterBySpecialty (filterByCity results0 city) specialty
    ({ total := results.length, totalFhir := some bundle.total, results := results },
     [roleFilterReq specialty count])

/-! ### Pagination resume and the router -/

def handleLoadMore (api : Api) (nextUrl : String) : SearchResponse × List Req :=
  if apiBase.data.isPrefixOf nextUrl.data = false then
    ({ status := 400, error := some "Invalid pagination URL" }, [])
  else
    let bundle := api (Req.page nextUrl)
    if bundle.entry = [] then
      ({ total := 0, results := [], nextPage := none }, [Req.page nextUrl])
    else
      let practitioners := practsOfBundle bundle
      let rr := fetchRolesForPractitioners api (practitioners.map Pract.id)
      let results :=
        mergePractitionersAndRoles practitioners rr.1.practitionerRoles rr.1.organizations
      ({ total := results.length, totalFhir := some bundle.total, results := results,
         nextPage := nextLink bundle },
       Req.page nextUrl :: rr.2)

/-- The inbound query-string fields; `none` models an absent parameter. -/
structure SearchParams where
  next : Option String := none
  name : Option String := none
  city : Option String := none
  specialty : Option String := none
  specialtyCode : Option String := none
  rpps : Option String := none
  count : Option String := none
deriving DecidableEq

/-- `Math.min(parseInt(params.get('count') || '200', 10), 500)`. -/
def countParamValue (raw : Option String) : Option Int :=
  jsMin (jsParseInt (jsOrDefault (raw.getD "") "200")) 500

def handleSearch (api : Api) (p : SearchParams) : SearchResponse × List Req :=
  let nextUrl := p.next.getD ""
  if nextUrl ≠ "" then handleLoadMore api nextUrl
  else
    let name := p.name.getD ""
    let city := p.city.getD ""
    let specialty := p.specialty.getD ""
    let specialtyCode := p.specialtyCode.getD ""
    let rpps := p.rpps.getD ""
    let count := countParamValue p.count
    if rpps ≠ "" then searchByRpps api rpps
    else if specialtyCode ≠ "" then searchByQualificationCode api specialtyCode name city count
    else if name ≠ "" then searchByName api name city specialty count
    else if city ≠ "" then searchByRoleFilters api city specialty count
    else ({ status := 400, error := some "Remplis au moins un critère de recherche" }, [])

/-! ## Helper lemmas -/

theorem filterBool_comm (p q : α → Bool) (l : List α) :
    (l.filter p).filter q = (l.filter q).filter p := by
  simp only [List.filter_filter]
  congr 1
  funext a
  exact Bool.and_comm _ _

theorem attachOrg_practitionerId (orgs : List (String × Org)) (role : Role) :
    (attachOrg orgs role).practitionerId = role.practitionerId := by
  unfold attachOrg
  split
  · cases objGet orgs role.organizationId <;> simp
  · rfl

/-- Key/content invariant of the grouped-roles object map. -/
def GroupedInv (m : List (String × List Role)) : Prop :=
  ∀ kv ∈ m, kv.1 ≠ "" ∧ ∀ r ∈ kv.2, r.practitionerId = kv.1

theorem objPush_inv (m : List (String × List Role)) (k : String) (v : Role)
    (hm : GroupedInv m) (hk : k ≠ "") (hv : v.practitionerId = k) :
    GroupedInv (objPush m k v) := by
  induction m with
  | nil =>
    intro kv hkv
    simp only [objPush, List.mem_singleton] at hkv
    subst hkv
    exact ⟨hk, by intro r hr; simp only [List.mem_singleton] at hr; subst hr; exact hv⟩
  | cons hd t ih =>
    intro kv hkv
    by_cases he : hd.1 = k
    · simp only [objPush, he, if_pos rfl] at hkv
      rcases List.mem_cons.mp hkv with hkv | hkv
      · subst hkv
        refine ⟨by simpa [he] using hk, ?_⟩
        intro r hr
        rcases List.mem_append.mp hr with hr | hr
        · exact ((hm hd (List.mem_cons_self hd t)).2 r hr).trans (by simp [he])
        · simp only [List.mem_singleton] at hr; subst hr; simpa [he] using hv
      · exact hm kv (List.mem_cons_of_mem hd hkv)
    · rw [show objPush (hd :: t) k v = hd :: objPush t k v by
        cases hd with
        | mk a b => simp [objPush, he]] at hkv
      rcases List.mem_cons.mp hkv with hkv | hkv
      · subst hkv; exact hm kv (List.mem_cons_self kv t)
      · exact ih (fun x hx => hm x (List.mem_cons_of_mem hd hx)) kv hkv

theorem buildRolesBy_fold_inv (orgs : List (String × Org)) (roles : List Role) :
    ∀ m : List (String × List Role), GroupedInv m →
      GroupedInv (roles.foldl (fun m role =>
        if role.practitionerId = "" then m
        else objPush m role.practitionerId (attachOrg orgs role)) m) := by
  induction roles with
  | nil => intro m hm; exact hm
  | cons role t ih =>
    intro m hm
    simp only [List.foldl_cons]
    apply ih
    by_cases hp : role.practitionerId = ""
    · simpa [hp] using hm
    · rw [if_neg hp]
      exact objPush_inv m role.practitionerId (attachOrg orgs role) hm hp
        (attachOrg_practitionerId orgs role)

theorem buildRolesBy_inv (orgs : List (String × Org)) (roles : List Role) :
    GroupedInv (buildRolesBy orgs roles) :=
  buildRolesBy_fold_inv orgs roles [] (by intro kv hkv; simp at hkv)

theorem objGet_mem (m : List (String × α)) (k : String) (v : α)
    (h : objGet m k = some v) : (k, v) ∈ m := by
  induction m with
  | nil => simp [objGet] at h
  | cons hd t ih =>
    cases hd with
    | mk k0 v0 =>
      by_cases he : k0 = k
      · subst he
        simp [objGet] at h
        subst h
        exact List.mem_cons_self _ _
      · simp only [objGet, if_neg he] at h
        exact List.mem_cons_of_mem _ (ih h)

/-! ## Claim theorems -/

/-- Claim C5: the city and specialty post-filters never lengthen the result
list, and applying `filterByCity` and `filterBySpecialty` in either order
yields the same final list. -/
theorem filters_monotone_and_commute (results : List MergedResult) (city specialty : String) :
    (filterByCity results city).length ≤ results.length ∧
    (filterBySpecialty results specialty).length ≤ results.length ∧
    filterBySpecialty (filterByCity results city) specialty
      = filterByCity (filterBySpecialty results specialty) city := by
  refine ⟨?_, ?_, ?_⟩
  · unfold filterByCity
    split
    · exact le_refl _
    · exact List.length_filter_le _ _
  · unfold filterBySpecialty
    split
    · exact le_refl _
    · exact List.length_filter_le _ _
  · unfold filterByCity filterBySpecialty
    split_ifs <;> first
      | rfl
      | exact filterBool_comm _ _ _

/-- Claim C9, counterexample: a non-numeric `count` parameter parses to `NaN`
(`none`), which `Math.min` propagates, so the page size handed to the chosen
strategy is not a number at most the configured maximum 500. -/
theorem countParam_nan_not_clamped :
    countParamValue (some "abc") = none ∧
    jsLeNum (countParamValue (some "abc")) 500 = false := by
  constructor <;> rfl

/-- Claim C9 (amended): whenever the clamped `count` is an actual number
(the parameter is absent or parses to an integer) it is at most the
configured maximum 500; a non-numeric parameter instead yields `NaN`. -/
theorem countParamValue_le_max (raw : Option String) (n : Int)
    (h : countParamValue raw = some n) : n ≤ 500 := by
  unfold countParamValue jsMin at h
  cases hp : jsParseInt (jsOrDefault (raw.getD "") "200") with
  | none => rw [hp] at h; simp at h
  | some x =>
    rw [hp] at h
    simp at h
    subst h
    exact min_le_right _ _

/-- Witness for Claim C9: `count=1000` is clamped to exactly 500 ≤ 500. -/
theorem countParamValue_le_max_w :
    countParamValue (some "1000") = some 500 ∧ (500 : Int) ≤ 500 :=
  ⟨rfl, countParamValue_le_max (some "1000") 500 rfl⟩

/-- Claim C10: in `mergePractitionersAndRoles`, a role whose practitioner
reference parsed to the empty string (which is what an absent or empty raw
reference parses to under `refId`) is skipped, and every role attached to a
merged result carries exactly that result's practitioner id. -/
theorem merge_skips_empty_practitioner_refs (practitioners : List Pract) (roles : List Role)
    (orgs : List (String × Org)) (m : MergedResult)
    (hm : m ∈ mergePractitionersAndRoles practitioners roles orgs) :
    (∀ ref : Option String, ref.getD "" = "" → refId "Practitioner/" ref = "") ∧
    ∀ r ∈ m.roles, r.practitionerId = m.pract.id ∧ r.practitionerId ≠ "" := by
  constructor
  · intro ref h
    cases ref with
    | none => rfl
    | some s => simp only [Option.getD] at h; rw [h]; rfl
  · intro r hr
    unfold mergePractitionersAndRoles at hm
    rw [List.mem_map] at hm
    obtain ⟨p, hp, hem⟩ := hm
    subst hem
    have hr2 : r ∈ (objGet (buildRolesBy orgs roles) p.id).getD [] := hr
    show r.practitionerId = p.id ∧ r.practitionerId ≠ ""
    cases hg : objGet (buildRolesBy orgs roles) p.id with
    | none => rw [hg] at hr2; simp at hr2
    | some rs =>
      rw [hg] at hr2
      simp only [Option.getD] at hr2
      have hinv := buildRolesBy_inv orgs roles (p.id, rs) (objGet_mem _ _ _ hg)
      have hid := hinv.2 r hr2
      exact ⟨hid, by rw [hid]; exact hinv.1⟩

def p0 : Pract :=
  { id := "p1", rpps := none, identifiers := [], lastName := "Dupont", firstName := "Marie",
    qualifications := [], active := true }

def r0 : Role :=
  { id := "R1", practitionerId := "p1", organizationId := "", specialties := [],
    telecoms := [], active := true }

def m0 : MergedResult := { pract := p0, roles := [r0] }

/-- Witness for Claim C10 at a concrete merge. -/
theorem merge_skips_empty_practitioner_refs_w :
    r0.practitionerId = m0.pract.id ∧ r0.practitionerId ≠ "" :=
  (merge_skips_empty_practitioner_refs [p0] [r0] [] m0 (by decide)).2 r0 (by decide)

/-! ## Batching lemmas -/

theorem chunksAux_nil (B fuel : Nat) : chunksAux B fuel ([] : List α) = [] := by
  cases fuel <;> rfl

theorem chunksAux_succ_cons (B fuel : Nat) (c : α) (t : List α) :
    chunksAux B (fuel + 1) (c :: t) = (c :: t).take B :: chunksAux B fuel ((c :: t).drop B) := rfl

theorem chunksAux_length (B : Nat) (hB : 0 < B) :
    ∀ (fuel : Nat) (l : List α), l.length ≤ fuel →
      (chunksAux B fuel l).length = (l.length + B - 1) / B := by
  intro fuel
  induction fuel with
  | zero =>
    intro l hl
    have hnil : l = [] := List.eq_nil_of_length_eq_zero (Nat.le_zero.mp hl)
    subst hnil
    rw [chunksAux_nil]
    simp only [List.length_nil]
    symm
    exact Nat.div_eq_of_lt (by omega)
  | succ fuel ih =>
    intro l hl
    cases l with
    | nil =>
      rw [chunksAux_nil]
      simp only [List.length_nil]
      symm
      exact Nat.div_eq_of_lt (by omega)
    | cons c t =>
      rw [chunksAux_succ_cons]
      simp only [List.length_cons]
      rw [ih ((c :: t).drop B)
        (by simp only [List.length_drop, List.length_cons] at hl ⊢; omega)]
      simp only [List.length_drop, List.length_cons]
      by_cases hle : t.length + 1 ≤ B
      · have h1 : t.length + 1 - B = 0 := by omega
        rw [h1]
        have h2 : (0 + B - 1) / B = 0 := Nat.div_eq_of_lt (by omega)
        rw [h2]
        have h3 : t.length + 1 + B - 1 = t.length + B := by omega
        rw [h3, Nat.add_div_right _ hB]
        have h4 : t.length / B = 0 := Nat.div_eq_of_lt (by omega)
        omega
      · have h1 : t.length + 1 - B + B - 1 = t.length := by omega
        have h2 : t.length + 1 + B - 1 = t.length + B := by omega
        rw [h1, h2, Nat.add_div_right _ hB]

theorem chunksOf_length (B : Nat) (hB : 0 < B) (l : List α) :
    (chunksOf B l).length = (l.length + B - 1) / B :=
  chunksAux_length B hB l.length l le_rfl

theorem chunksAux_mem_bounds (B : Nat) (hB : 0 < B) :
    ∀ (fuel : Nat) (l : List α), ∀ c ∈ chunksAux B fuel l, c.length ≤ B ∧ c ≠ [] := by
  intro fuel
  induction fuel with
  | zero => intro l c hc; simp [chunksAux] at hc
  | succ fuel ih =>
    intro l c hc
    cases l with
    | nil => rw [chunksAux_nil] at hc; simp at hc
    | cons x t =>
      rw [chunksAux_succ_cons] at hc
      rcases List.mem_cons.mp hc with h | h
      · subst h
        refine ⟨by simpa using List.length_take_le B (x :: t), ?_⟩
        cases B with
        | zero => omega
        | succ b => simp [List.take]
      · exact ih _ c h

theorem foldl_roleFetchStep_roles (entries : List Resource) :
    ∀ acc : RoleFetch, (entries.foldl roleFetchStep acc).practitionerRoles
      = acc.practitionerRoles ++ entries.filterMap roleParseOfEntry := by
  induction entries with
  | nil => intro acc; simp
  | cons r t ih =>
    intro acc
    simp only [List.foldl_cons]
    rw [ih]
    cases r <;> simp [roleFetchStep, roleParseOfEntry]

theorem foldl_roleFetchStep_orgs (entries : List Resource) :
    ∀ acc : RoleFetch, (entries.foldl roleFetchStep acc).organizations
      = (entries.filterMap orgPairOfEntry).foldl (fun m pr => objSet m pr.1 pr.2)
          acc.organizations := by
  induction entries with
  | nil => intro acc; simp
  | cons r t ih =>
    intro acc
    simp only [List.foldl_cons]
    rw [ih]
    cases r <;> simp [roleFetchStep, orgPairOfEntry]

theorem fetch_fold_roles (api : Api) (reqs : List Req) :
    ∀ acc : RoleFetch,
      ((reqs.foldl (fun acc q => processRoleBundle acc (api q)) acc).practitionerRoles)
        = acc.practitionerRoles ++ (reqs.map (fun q => rolesOfBundle (api q))).flatten := by
  induction reqs with
  | nil => intro acc; simp
  | cons q t ih =>
    intro acc
    simp only [List.foldl_cons, List.map_cons, List.flatten_cons]
    rw [ih]
    unfold processRoleBundle
    rw [foldl_roleFetchStep_roles]
    rw [List.append_assoc]
    rfl

theorem fetch_fold_orgs (api : Api) (reqs : List Req) :
    ∀ acc : RoleFetch,
      ((reqs.foldl (fun acc q => processRoleBundle acc (api q)) acc).organizations)
        = ((reqs.map (fun q => orgPairsOfBundle (api q))).flatten).foldl
            (fun m pr => objSet m pr.1 pr.2) acc.organizations := by
  induction reqs with
  | nil => intro acc; simp
  | cons q t ih =>
    intro acc
    simp only [List.foldl_cons, List.map_cons, List.flatten_cons]
    rw [ih]
    unfold processRoleBundle
    rw [foldl_roleFetchStep_orgs, List.foldl_append]
    rfl

theorem objGet_objSet (m : List (String × α)) (a k : String) (b : α) :
    objGet (objSet m a b) k = if a = k then some b else objGet m k := by
  induction m with
  | nil => simp [objSet, objGet]
  | cons hd t ih =>
    cases hd with
    | mk k0 v0 =>
      by_cases h1 : k0 = a <;> by_cases h2 : k0 = k <;> by_cases h3 : a = k <;>
        simp_all [objSet, objGet]

theorem foldl_lastSeen_general (k : String) (l : List (String × α)) :
    ∀ a : Option α, l.foldl (fun acc pr => if pr.1 = k then some pr.2 else acc) a
      = (lastSeenById l k).or a := by
  induction l with
  | nil => intro a; simp [lastSeenById, Option.or]
  | cons pr t ih =>
    intro a
    simp only [List.foldl_cons]
    rw [ih]
    have h2 : lastSeenById (pr :: t) k
        = (lastSeenById t k).or (if pr.1 = k then some pr.2 else none) := by
      show (pr :: t).foldl (fun acc x => if x.1 = k then some x.2 else acc) none = _
      simp only [List.foldl_cons]
      exact ih _
    rw [h2]
    cases hl : lastSeenById t k with
    | some v => simp [Option.or]
    | none => by_cases hp : pr.1 = k <;> simp [Option.or, hp]

theorem lastSeenById_cons (k : String) (pr : String × α) (t : List (String × α)) :
    lastSeenById (pr :: t) k
      = (lastSeenById t k).or (if pr.1 = k then some pr.2 else none) := by
  show (pr :: t).foldl (fun acc x => if x.1 = k then some x.2 else acc) none = _
  simp only [List.foldl_cons]
  exact foldl_lastSeen_general k t _

theorem objGet_foldl_objSet (l : List (String × α)) :
    ∀ (m : List (String × α)) (k : String),
      objGet (l.foldl (fun m pr => objSet m pr.1 pr.2) m) k
        = (lastSeenById l k).or (objGet m k) := by
  induction l with
  | nil => intro m k; simp [lastSeenById, Option.or]
  | cons pr t ih =>
    intro m k
    simp only [List.foldl_cons]
    rw [ih, objGet_objSet]
    rw [lastSeenById_cons]
    cases hl : lastSeenById t k with
    | some v => simp [Option.or]
    | none => by_cases hp : pr.1 = k <;> simp [Option.or, hp]

/-- The role records of every fetched batch bundle, concatenated in order. -/
def batchedRoleEntries (api : Api) (reqs : List Req) : List Role :=
  (reqs.map (fun q => rolesOfBundle (api q))).flatten

/-- The `(id, organization)` pairs of every fetched batch bundle, in order. -/
def batchedOrgPairs (api : Api) (reqs : List Req) : List (String × Org) :=
  (reqs.map (fun q => orgPairsOfBundle (api q))).flatten

def apiEmpty : Api := fun _ => {}

set_option maxRecDepth 8000 in
/-- Claim C4, counterexample: with 301 identifiers the fetcher issues only 6
batch queries (the `maxBatches = 6` cap), not `ceil(301 / 50) = 7`. -/
theorem fetchRoles_ceil_violated :
    (fetchRolesForPractitioners apiEmpty (List.replicate 301 "p")).2.length = 6 ∧
    ((List.replicate 301 "p").length + 50 - 1) / 50 = 7 := by
  constructor <;> rfl

/-- Claim C4 (amended): for every identifier list the fetcher issues exactly
`min(ceil(|ids| / 50), 6)` batch queries, each carrying a non-empty batch of
at most 50 identifiers, and every returned role comes from the entry list of
one of those batch responses. -/
theorem fetchRoles_batching (api : Api) (ids : List String) (hne : ids ≠ []) :
    (fetchRolesForPractitioners api ids).2.length = min ((ids.length + 50 - 1) / 50) 6 ∧
    (∀ q ∈ (fetchRolesForPractitioners api ids).2,
      ∃ batch, q = roleBatchReq batch ∧ batch ≠ [] ∧ batch.length ≤ 50) ∧
    ∀ role ∈ (fetchRolesForPractitioners api ids).1.practitionerRoles,
      ∃ q ∈ (fetchRolesForPractitioners api ids).2, ∃ rr,
        Resource.practitionerRole rr ∈ (api q).entry ∧ role = parsePractitionerRole rr := by
  refine ⟨?_, ?_, ?_⟩
  · show ((fetchBatches ids).map roleBatchReq).length = _
    rw [List.length_map]
    unfold fetchBatches
    rw [List.length_take, chunksOf_length 50 (by omega)]
    exact Nat.min_comm _ _
  · intro q hq
    have hq2 : q ∈ (fetchBatches ids).map roleBatchReq := hq
    obtain ⟨batch, hb, hbq⟩ := List.mem_map.mp hq2
    have hb2 : batch ∈ chunksOf 50 ids := List.take_subset _ _ hb
    have hbd := chunksAux_mem_bounds 50 (by omega) ids.length ids batch hb2
    exact ⟨batch, hbq.symm, hbd.2, hbd.1⟩
  · intro role hrole
    have h1 : (fetchRolesForPractitioners api ids).1.practitionerRoles
        = (((fetchBatches ids).map roleBatchReq).map (fun q => rolesOfBundle (api q))).flatten := by
      show ((((fetchBatches ids).map roleBatchReq).foldl
          (fun acc q => processRoleBundle acc (api q)) {}).practitionerRoles) = _
      rw [fetch_fold_roles]
      rfl
    rw [h1] at hrole
    rw [List.mem_flatten] at hrole
    obtain ⟨s, hs, hroles⟩ := hrole
    obtain ⟨q, hq, hsq⟩ := List.mem_map.mp hs
    subst hsq
    unfold rolesOfBundle at hroles
    rw [List.mem_filterMap] at hroles
    obtain ⟨res, hres, hparse⟩ := hroles
    cases res with
    | practitioner p => simp [roleParseOfEntry] at hparse
    | practitionerRole rr =>
      simp only [roleParseOfEntry, Option.some.injEq] at hparse
      exact ⟨q, hq, rr, hres, hparse.symm⟩
    | organization o => simp [roleParseOfEntry] at hparse
    | other => simp [roleParseOfEntry] at hparse

/-- Witness for Claim C4 at a concrete two-identifier fetch. -/
theorem fetchRoles_batching_w :
    (fetchRolesForPractitioners apiEmpty ["a", "b"]).2.length
      = min (((["a", "b"] : List String).length + 50 - 1) / 50) 6 :=
  (fetchRoles_batching apiEmpty ["a", "b"] (by decide)).1

def rawRoleDup : RawRole :=
  { id := "R1", practitioner := some "Practitioner/p1", organization := none,
    specialty := [], telecom := [], active := none }

def apiDup : Api := fun _ =>
  { entry := [Resource.practitionerRole rawRoleDup, Resource.practitionerRole rawRoleDup],
    total := 2 }

/-- Claim C6, counterexample: a role record delivered twice across the
fetched batch responses is returned twice — the returned role list is not
deduplicated by id. -/
theorem fetchRoles_roles_not_deduped :
    ((fetchRolesForPractitioners apiDup ["p1"]).1.practitionerRoles.map Role.id)
        = ["R1", "R1"] ∧
    ¬ ((fetchRolesForPractitioners apiDup ["p1"]).1.practitionerRoles.map Role.id).Nodup := by
  constructor
  · rfl
  · decide

/-- Claim C6 (amended): the batch fetcher returns the concatenation of every
role record seen across its batch responses, in order and without
deduplication by id, while the organizations seen are keyed by id with the
last-seen record winning on a duplicate id. -/
theorem fetchRoles_union_and_orgDedup (api : Api) (ids : List String) :
    (fetchRolesForPractitioners api ids).1.practitionerRoles
        = batchedRoleEntries api (fetchRolesForPractitioners api ids).2 ∧
    ∀ k, objGet (fetchRolesForPractitioners api ids).1.organizations k
        = lastSeenById (batchedOrgPairs api (fetchRolesForPractitioners api ids).2) k := by
  constructor
  · show ((((fetchBatches ids).map roleBatchReq).foldl
        (fun acc q => processRoleBundle acc (api q)) {}).practitionerRoles) = _
    rw [fetch_fold_roles]
    rfl
  · intro k
    show objGet ((((fetchBatches ids).map roleBatchReq).foldl
        (fun acc q => processRoleBundle acc (api q)) {}).organizations) k = _
    rw [fetch_fold_orgs, objGet_foldl_objSet]
    show (lastSeenById (batchedOrgPairs api (fetchRolesForPractitioners api ids).2) k).or
        (objGet ([] : List (String × Org)) k)
      = lastSeenById (batchedOrgPairs api (fetchRolesForPractitioners api ids).2) k
    rw [show objGet ([] : List (String × Org)) k = none from rfl]
    cases lastSeenById (batchedOrgPairs api (fetchRolesForPractitioners api ids).2) k <;> rfl

/-! ## Plan-chain lemmas -/

theorem runPlans_cons_nonempty (api : Api) (q : Req) (rest : List Req)
    (h : (api q).entry ≠ []) : runPlans api (q :: rest) = (api q, [q]) := by
  conv_lhs => rw [runPlans.eq_def]
  simp [h]

theorem runPlans_single (api : Api) (q : Req) : runPlans api [q] = (api q, [q]) := by
  conv_lhs => rw [runPlans.eq_def]
  by_cases h : (api q).entry = [] <;> simp [h]

theorem runPlans_cons_empty (api : Api) (q r : Req) (t : List Req)
    (h : (api q).entry = []) :
    runPlans api (q :: r :: t)
      = ((runPlans api (r :: t)).1, q :: (runPlans api (r :: t)).2) := by
  conv_lhs => rw [runPlans.eq_def]
  simp [h]

/-- The fallback chain always attempts a non-empty prefix of the plan list,
every attempt but the last came back empty, and it stops early only on a
non-empty result. -/
theorem runPlans_chain (api : Api) :
    ∀ ps : List Req, ps ≠ [] →
      (runPlans api ps).2 ≠ [] ∧
      (runPlans api ps).2.length ≤ ps.length ∧
      (runPlans api ps).2 = ps.take (runPlans api ps).2.length ∧
      (∀ q ∈ (runPlans api ps).2.dropLast, (api q).entry = []) ∧
      ((runPlans api ps).2 = ps ∨ (runPlans api ps).1.entry ≠ []) := by
  intro ps
  induction ps with
  | nil => intro h; exact absurd rfl h
  | cons q rest ih =>
    intro _
    by_cases hq : (api q).entry = []
    · cases rest with
      | nil =>
        rw [runPlans_single]
        refine ⟨by simp, by simp, by simp, ?_, Or.inl rfl⟩
        intro q2 hq2
        simp at hq2
      | cons r t =>
        rw [runPlans_cons_empty api q r t hq]
        obtain ⟨ih1, ih2, ih3, ih4, ih5⟩ := ih (by simp)
        refine ⟨by simp, ?_, ?_, ?_, ?_⟩
        · simp only [List.length_cons] at ih2 ⊢
          omega
        · simp only [List.length_cons, List.take_succ_cons]
          exact congrArg (q :: ·) ih3
        · intro q2 hq2
          obtain ⟨b, bs, hbr⟩ := List.exists_cons_of_ne_nil ih1
          rw [hbr, List.dropLast_cons₂] at hq2
          rcases List.mem_cons.mp hq2 with h | h
          · subst h; exact hq
          · refine ih4 q2 ?_
            rw [hbr]
            exact h
        · rcases ih5 with h | h
          · exact Or.inl (by rw [h])
          · exact Or.inr h
    · rw [runPlans_cons_nonempty api q rest hq]
      refine ⟨by simp, by simp, by simp, ?_, Or.inr hq⟩
      intro q2 hq2
      simp at hq2

theorem namePlans_ne_nil (name : String) : namePlans name ≠ [] := by
  simp only [namePlans]
  split <;> simp

theorem namePlans_length_le (name : String) : (namePlans name).length ≤ 3 := by
  simp only [namePlans]
  split <;> simp

/-- Claim C2: the name-lookup strategy attempts at most 4 plans — in fact a
prefix of `namePlans` (for a multi-token name: family=first+given=rest, then
family=last+given=leading, then family=first alone; for a single token:
family=name, then the unstructured name=name query); every attempt except
the last returned an empty entry list (so the first non-empty plan is
accepted, in particular a successful family+given plan stops the chain), and
the chain is cut short only when the last attempted plan was non-empty. The
calls of `searchByName` begin with exactly these plan queries. -/
theorem searchByName_plan_chain (api : Api) (name city specialty : String)
    (count : Option Int) (hname : name ≠ "") :
    (runPlans api (namePlans name)).2.length ≤ 4 ∧
    (runPlans api (namePlans name)).2
        = (namePlans name).take (runPlans api (namePlans name)).2.length ∧
    (∀ q ∈ (runPlans api (namePlans name)).2.dropLast, (api q).entry = []) ∧
    ((runPlans api (namePlans name)).2 = namePlans name ∨
      (runPlans api (namePlans name)).1.entry ≠ []) ∧
    (∀ q1 rest1, namePlans name = q1 :: rest1 → (api q1).entry ≠ [] →
      (runPlans api (namePlans name)).2 = [q1]) ∧
    (∀ q1 q2 rest2, namePlans name = q1 :: q2 :: rest2 →
      (api q1).entry = [] → (api q2).entry ≠ [] →
      (runPlans api (namePlans name)).2 = [q1, q2]) ∧
    ∃ rest, (searchByName api name city specialty count).2
        = (runPlans api (namePlans name)).2 ++ rest := by
  obtain ⟨h1, h2, h3, h4, h5⟩ := runPlans_chain api (namePlans name) (namePlans_ne_nil name)
  refine ⟨le_trans h2 (le_trans (namePlans_length_le name) (by omega)), h3, h4, h5, ?_, ?_, ?_⟩
  · intro q1 rest1 hps hq1
    rw [hps, runPlans_cons_nonempty api q1 rest1 hq1]
  · intro q1 q2 rest2 hps hq1 hq2
    rw [hps, runPlans_cons_empty api q1 q2 rest2 hq1, runPlans_cons_nonempty api q2 rest2 hq2]
  · by_cases hb : (runPlans api (namePlans name)).1.entry = []
    · refine ⟨[], ?_⟩
      simp only [searchByName]
      rw [if_pos hb]
      simp
    · simp only [searchByName]
      rw [if_neg hb]
      exact ⟨_, List.append_assoc _ _ _⟩

def rawPract1 : RawPractitioner :=
  { id := "p1", name := [], identifier := [], qualification := [], active := none }

def planDupontMarie : Req :=
  Req.search "Practitioner" [("family", "Dupont"), ("given", "Marie"), ("_count", "200")]

def api2 : Api := fun q =>
  if q = planDupontMarie then { entry := [Resource.practitioner rawPract1], total := 3 }
  else {}

/-- Witness for Claim C2 on a concrete two-token name search. -/
theorem searchByName_plan_chain_w :
    (runPlans api2 (namePlans "Dupont Marie")).2.length ≤ 4 :=
  (searchByName_plan_chain api2 "Dupont Marie" "" "" (some 200) (by decide)).1

/-- Claim C1: the router evaluates its strategies in strict precedence order
(continuation token, then national identifier, then qualification code, then
free-text name, then city), dispatching to exactly one of them, and when no
field is present it answers HTTP 400 without issuing any remote call. -/
theorem handleSearch_precedence (api : Api) (p : SearchParams) :
    (p.next.getD "" ≠ "" → handleSearch api p = handleLoadMore api (p.next.getD "")) ∧
    (p.next.getD "" = "" → p.rpps.getD "" ≠ "" →
      handleSearch api p = searchByRpps api (p.rpps.getD "")) ∧
    (p.next.getD "" = "" → p.rpps.getD "" = "" → p.specialtyCode.getD "" ≠ "" →
      handleSearch api p = searchByQualificationCode api (p.specialtyCode.getD "")
        (p.name.getD "") (p.city.getD "") (countParamValue p.count)) ∧
    (p.next.getD "" = "" → p.rpps.getD "" = "" → p.specialtyCode.getD "" = "" →
      p.name.getD "" ≠ "" →
      handleSearch api p = searchByName api (p.name.getD "") (p.city.getD "")
        (p.specialty.getD "") (countParamValue p.count)) ∧
    (p.next.getD "" = "" → p.rpps.getD "" = "" → p.specialtyCode.getD "" = "" →
      p.name.getD "" = "" → p.city.getD "" ≠ "" →
      handleSearch api p = searchByRoleFilters api (p.city.getD "") (p.specialty.getD "")
        (countParamValue p.count)) ∧
    (p.next.getD "" = "" → p.rpps.getD "" = "" → p.specialtyCode.getD "" = "" →
      p.name.getD "" = "" → p.city.getD "" = "" →
      handleSearch api p
        = ({ status := 400, error := some "Remplis au moins un critère de recherche" }, [])) := by
  refine ⟨?_, ?_, ?_, ?_, ?_, ?_⟩ <;> intros <;> simp_all [handleSearch]

/-- Witness for Claim C1: a request with no field at all is rejected with a
validation error and an empty call trace. -/
theorem handleSearch_precedence_w :
    handleSearch apiEmpty {}
      = ({ status := 400, error := some "Remplis au moins un critère de recherche" }, []) :=
  (handleSearch_precedence apiEmpty {}).2.2.2.2.2 rfl rfl rfl rfl rfl

/-- Claim C8: a continuation token that does not start with the upstream base
URL is rejected with a validation error before any remote call is issued. -/
theorem loadMore_foreign_token_rejected (api : Api) (p : SearchParams)
    (hn : p.next.getD "" ≠ "")
    (hbad : apiBase.data.isPrefixOf (p.next.getD "").data = false) :
    handleSearch api p = ({ status := 400, error := some "Invalid pagination URL" }, []) := by
  simp only [handleSearch]
  rw [if_pos hn]
  simp only [handleLoadMore]
  rw [if_pos hbad]

def pForeign : SearchParams := { next := some "https://attacker.example/x" }

/-- Witness for Claim C8 on a concrete foreign continuation token. -/
theorem loadMore_foreign_token_rejected_w :
    handleSearch apiEmpty pForeign
      = ({ status := 400, error := some "Invalid pagination URL" }, []) :=
  loadMore_foreign_token_rejected apiEmpty pForeign (by decide) (by decide)

/-! ## Reverse-lookup lemmas and claims -/

theorem jsSliceTo_subset (l : List α) (e : Option Int) : ∀ x ∈ jsSliceTo l e, x ∈ l := by
  intro x hx
  cases e with
  | none => simp [jsSliceTo] at hx
  | some v =>
    simp only [jsSliceTo] at hx
    split at hx <;> exact List.take_subset _ _ hx

theorem jsSliceTo_length_le (l : List α) (c : Int) (h0 : 0 ≤ c) :
    ((jsSliceTo l (some c)).length : Int) ≤ c := by
  simp only [jsSliceTo]
  rw [if_pos h0]
  calc ((l.take c.toNat).length : Int) ≤ (c.toNat : Int) := by
        exact_mod_cast List.length_take_le _ _
    _ = c := Int.toNat_of_nonneg h0

/-- Claim C3: in the specialty+city reverse lookup, every returned merged
result's practitioner record comes from the entry list of one of the phase-3
queries (which are constrained by the qualification code) — ids absent from
that constrained fetch never appear —, the result list is capped to the
requested page size, and no upstream total is reported. -/
theorem specialtyCity_and_filter (api : Api) (qualCode city : String) (c : Int) (h0 : 0 ≤ c) :
    ((searchBySpecialtyAndCity api qualCode city (some c)).1.results.length : Int) ≤ c ∧
    (searchBySpecialtyAndCity api qualCode city (some c)).1.totalFhir = none ∧
    ∀ m ∈ (searchBySpecialtyAndCity api qualCode city (some c)).1.results,
      ∃ batch, practIdReq qualCode batch ∈ (searchBySpecialtyAndCity api qualCode city (some c)).2 ∧
        m.pract ∈ practsOfBundle (api (practIdReq qualCode batch)) := by
  by_cases h1 : (api (orgCityReq city)).entry = []
  · have hval : searchBySpecialtyAndCity api qualCode city (some c)
        = ({ total := 0, results := [],
             message := some ("Aucune structure trouvée à " ++ city) }, [orgCityReq city]) := by
      simp only [searchBySpecialtyAndCity]
      rw [if_pos h1]
    rw [hval]
    exact ⟨by simpa using h0, rfl, by intro m hm; simp at hm⟩
  · by_cases h2 : (phase2 api city).1 = []
    · have hval : searchBySpecialtyAndCity api qualCode city (some c)
          = ({ total := 0, results := [] },
             orgCityReq city :: phase1Calls api city
               ++ (phase1OrgBatches api city).map roleOrgReq) := by
        simp only [searchBySpecialtyAndCity]
        rw [if_neg h1, if_pos h2]
      rw [hval]
      exact ⟨by simpa using h0, rfl, by intro m hm; simp at hm⟩
    · have hval : searchBySpecialtyAndCity api qualCode city (some c)
          = ({ total := (phase3Results api qualCode city (some c)).length,
               results := phase3Results api qualCode city (some c) },
             orgCityReq city :: phase1Calls api city
               ++ (phase1OrgBatches api city).map roleOrgReq
               ++ (phase3Batches api city).map (practIdReq qualCode)) := by
        simp only [searchBySpecialtyAndCity]
        rw [if_neg h1, if_neg h2]
      rw [hval]
      refine ⟨jsSliceTo_length_le _ c h0, rfl, ?_⟩
      intro m hm
      have hm1 : m ∈ jsSliceTo
          ((matchedPractitioners api qualCode (phase3Batches api city)).map
            (fun p => { pract := p, roles := (objGet (phase2 api city).2 p.id).getD [] }))
          (some c) := hm
      have hm2 := jsSliceTo_subset _ _ m hm1
      rw [List.mem_map] at hm2
      obtain ⟨p, hp, hmp⟩ := hm2
      unfold matchedPractitioners at hp
      rw [List.mem_flatMap] at hp
      obtain ⟨batch, hbatch, hpb⟩ := hp
      refine ⟨batch, ?_, ?_⟩
      · apply List.mem_cons_of_mem
        apply List.mem_append_right
        exact List.mem_map_of_mem _ hbatch
      · subst hmp
        exact hpb

def rawOrg1 : RawOrganization :=
  { id := "o1", name := some "Clinique", typeDisplay := none, address := [], telecom := [] }

def rawRole1 : RawRole :=
  { id := "R1", practitioner := some "Practitioner/p1",
    organization := some "Organization/o1", specialty := [], telecom := [], active := none }

def api3 : Api := fun q =>
  if q = orgCityReq "Lyon" then { entry := [Resource.organization rawOrg1], total := 1 }
  else if q = roleOrgReq ["o1"] then { entry := [Resource.practitionerRole rawRole1], total := 1 }
  else if q = practIdReq "SM54" ["p1"] then
    { entry := [Resource.practitioner rawPract1], total := 1 }
  else {}

/-- Witness for Claim C3 on a concrete reverse lookup. -/
theorem specialtyCity_and_filter_w :
    ((searchBySpecialtyAndCity api3 "SM54" "Lyon" (some 10)).1.results.length : Int) ≤ 10 :=
  (specialtyCity_and_filter api3 "SM54" "Lyon" 10 (by decide)).1

/-- Claim C7: a qualification-code search with a city and no name delegates
to the reverse lookup, and when phase 1 finds no organization in the city it
answers a well-formed envelope with total 0, no results and the descriptive
message `Aucune structure trouvée à {city}` after a single remote call. -/
theorem qual_city_no_orgs_message (api : Api) (code city : String) (count : Option Int)
    (hc : city ≠ "") (h : (api (orgCityReq city)).entry = []) :
    searchByQualificationCode api code "" city count
      = ({ total := 0, results := [],
           message := some ("Aucune structure trouvée à " ++ city) }, [orgCityReq city]) := by
  simp only [searchByQualificationCode]
  split
  · simp only [searchBySpecialtyAndCity]
    rw [if_pos h]
  · rename_i hcon
    exact absurd ⟨hc, by simp⟩ hcon

/-- Witness for Claim C7: city `Lyon`, no organization found upstream. -/
theorem qual_city_no_orgs_message_w :
    searchByQualificationCode apiEmpty "SM54" "" "Lyon" (some 200)
      = ({ total := 0, results := [],
           message := some "Aucune structure trouvée à Lyon" }, [orgCityReq "Lyon"]) :=
  qual_city_no_orgs_message apiEmpty "SM54" "Lyon" (some 200) (by decide) rfl

end AnnuaireSante
